import Mathlib

/-!
Shallow embedding of the agent/tool/permission mediation layer of the
`cursor-agent` repository (files `src/agent/base.py` and
`src/agent/ollama_agent.py`), together with theorems settling the frozen
claims about that layer.

Python dictionaries are modelled as insertion-ordered association lists
(`Dict`), Python values that can appear inside tool parameter schemas as
`PyVal`, and fallible Python code (code that may raise) as `Except`-valued
functions.  Tool functions — external callables handed to the agent — are
modelled at their contract: they receive a parameter mapping and either
return a structured result (a dict read through `result.get("output", "")`
and `result.get("error", None)`) or raise, i.e. `Params → Except String
ToolRet`.
-/

namespace CursorAgent

/-- A JSON-like Python value, as appears in tool parameter schemas and
`user_info` mappings. -/
inductive PyVal where
  | str (s : String)
  | int (n : Int)
  | list (xs : List PyVal)
  | dict (d : List (String × PyVal))
  | none

/-- An insertion-ordered Python `dict` with string keys, modelled as an
association list. -/
abbrev Dict (V : Type) := List (String × V)

/-- Lookup `d[k]` that can fail: `some v` when the key is present. -/
def dictGet {V : Type} (d : Dict V) (k : String) : Option V :=
  match d with
  | [] => Option.none
  | (k', v) :: rest => if k' = k then some v else dictGet rest k

/-- Python `d.get(k, default)`. -/
def dictGetD {V : Type} (d : Dict V) (k : String) (default : V) : V :=
  (dictGet d k).getD default

/-- Assignment `d[k] = v`: overwrite the first binding of `k` in place if present,
otherwise append a new binding (Python dicts keep insertion order). -/
def dictSet {V : Type} (d : Dict V) (k : String) (v : V) : Dict V :=
  match d with
  | [] => [(k, v)]
  | (k', v') :: rest =>
      if k' = k then (k', v) :: rest else (k', v') :: dictSet rest k v

/-- Number of bindings of key `k` in `d` (a well-formed dict has at most
one). -/
def countKey {V : Type} (d : Dict V) (k : String) : Nat :=
  d.countP (fun p => p.1 = k)

/-- The keys of a dict, in insertion order. -/
def dictKeys {V : Type} (d : Dict V) : List String := d.map Prod.fst

/-- The mapping of resolved arguments passed to a tool function
(`**parameters`). -/
abbrev Params := Dict PyVal

/-- The structured result a tool function returns on success, viewed
through `result.get("output", "")` and `result.get("error", None)`:
each field is `some` when the corresponding dict key is present. -/
structure ToolRet where
  output? : Option String
  error? : Option String

/-- A registered tool callable: takes the expanded keyword arguments and
either returns a structured result or raises (modelled by
`Except.error` carrying `str(e)`). -/
abbrev ToolFn := Params → Except String ToolRet

/-- The `schema` entry stored by `register_tool`
(`{"name": ..., "description": ..., "parameters": ...}`). -/
structure ToolSchema where
  name : String
  description : String
  parameters : Dict PyVal

/-- One entry of `available_tools`:
`{"function": function, "schema": {...}}`. -/
structure RegisteredTool where
  function : ToolFn
  schema : ToolSchema

/-- The registry `available_tools`: mapping from tool name to its registered entry. -/
abbrev Registry := Dict RegisteredTool

/-- Embeds `BaseAgent.register_tool` (src/agent/base.py, lines 66-81): insert or
overwrite the entry under `name`. -/
def register_tool (reg : Registry) (name : String) (function : ToolFn)
    (description : String) (parameters : Dict PyVal) : Registry :=
  dictSet reg name
    { function := function
      schema := { name := name, description := description, parameters := parameters } }

/-- A raw tool call as presented by the backend: a dict read through
`call.get("name", ...)` and `call.get("parameters", ...)`; a field is
`some` when the key is present. -/
structure Call where
  name? : Option String
  parameters? : Option Params

/-- The `ToolCallResult` TypedDict (src/agent/ollama_agent.py, lines 25-30). -/
structure ToolCallResult where
  name : String
  parameters : Params
  output : String
  error : Option String

/-- The body of the `for call in tool_calls` loop of
`OllamaAgent._execute_tool_calls` (src/agent/ollama_agent.py, lines
366-401): everything inside the per-call `try`/`except`. -/
def runCall (reg : Registry) (call : Call) : ToolCallResult :=
  let toolName := call.name?.getD ""
  let parameters := call.parameters?.getD []
  match dictGet reg toolName with
  | some toolData =>
      match toolData.function parameters with
      | Except.ok result =>
          { name := toolName
            parameters := parameters
            output := result.output?.getD ""
            error := result.error? }
      | Except.error e =>
          { name := call.name?.getD "unknown"
            parameters := call.parameters?.getD []
            output := ""
            error := some ("Error executing tool: " ++ e) }
  | Option.none =>
      { name := toolName
        parameters := parameters
        output := ""
        error := some ("Tool '" ++ toolName ++ "' not found") }

/-- The accumulation loop of `_execute_tool_calls`: `tool_results` starts
as `acc` and each iteration appends one result. -/
def execLoop (reg : Registry) (acc : List ToolCallResult) :
    List Call → List ToolCallResult
  | [] => acc
  | c :: cs => execLoop reg (acc ++ [runCall reg c]) cs

/-- Embeds `OllamaAgent._execute_tool_calls` (src/agent/ollama_agent.py, lines
353-403). -/
def execute_tool_calls (reg : Registry) (tool_calls : List Call) :
    List ToolCallResult :=
  execLoop reg [] tool_calls

theorem execLoop_eq_append (reg : Registry) (acc : List ToolCallResult)
    (calls : List Call) :
    execLoop reg acc calls = acc ++ calls.map (runCall reg) := by
  induction calls generalizing acc with
  | nil => simp [execLoop]
  | cons c cs ih => simp [execLoop, ih]

theorem execute_tool_calls_eq_map (reg : Registry) (calls : List Call) :
    execute_tool_calls reg calls = calls.map (runCall reg) := by
  simp [execute_tool_calls, execLoop_eq_append]

/-! ### Message formatting (`BaseAgent.format_user_message`, src/agent/base.py) -/

/-- A scalar value inside a `user_info` mapping, as serialised by
`json.dumps`. -/
inductive UVal where
  | str (s : String)
  | int (n : Int)
deriving DecidableEq

/-- The `user_info` mapping: a flat Python dict. -/
abbrev UserInfo := Dict UVal

/-- JSON rendering of one scalar value (the external `json` library,
modelled for flat dicts of scalars). -/
def uvalDump : UVal → String
  | UVal.str s => "\x22" ++ s ++ "\x22"
  | UVal.int n => toString n

/-- The comma-separated, two-space-indented members of a JSON object. -/
def jsonMembers : List (String × UVal) → String
  | [] => ""
  | [(k, v)] => "  \x22" ++ k ++ "\x22: " ++ uvalDump v
  | (k, v) :: rest => "  \x22" ++ k ++ "\x22: " ++ uvalDump v ++ ",\n" ++ jsonMembers rest

/-- Python `json.dumps(user_info, indent=2)` for a flat dict of scalars. -/
def jsonDumpsIndent2 (ui : UserInfo) : String :=
  match ui with
  | [] => "\x7b\x7d"
  | _ => "\x7b\n" ++ jsonMembers ui ++ "\n\x7d"

/-- Embeds `BaseAgent.format_user_message` (src/agent/base.py, lines 149-163).
The Python guard is `if user_info:` — a truthiness test, satisfied only by
a present **and non-empty** mapping. -/
def format_user_message (message : String) (user_info : Option UserInfo) : String :=
  match user_info with
  | some ui =>
      if ui.isEmpty then
        "<user_query>\n" ++ message ++ "\n</user_query>"
      else
        "<user_info>\n" ++ jsonDumpsIndent2 ui ++ "\n</user_info>\n\n<user_query>\n"
          ++ message ++ "\n</user_query>"
  | Option.none => "<user_query>\n" ++ message ++ "\n</user_query>"

/-- Whether the literal text `t` occurs anywhere inside `s`. -/
def containsTag (s t : String) : Prop := t.data <:+: s.data

instance (s t : String) : Decidable (containsTag s t) := by
  unfold containsTag
  infer_instance

/-! ### Permission types and the default interactive callback
(src/agent/base.py, lines 123-147) -/

/-- The `PermissionStatus` enum. -/
inductive PermissionStatus where
  | granted
  | denied
  | ask
deriving DecidableEq

/-- Python `str.strip()` whitespace set (ASCII portion). -/
def isPySpace (c : Char) : Bool :=
  c = ' ' ∨ c = '\t' ∨ c = '\n' ∨ c = '\r' ∨ c = '\x0b' ∨ c = '\x0c'

/-- Python `str.strip()`: drop leading and trailing whitespace. -/
def pyStrip (s : String) : String :=
  String.mk (((s.data.dropWhile isPySpace).reverse.dropWhile isPySpace).reverse)

/-- Python `str.lower()` (ASCII letters; the valid answers are ASCII). -/
def pyLower (s : String) : String := String.mk (s.data.map Char.toLower)

/-- The body of the `while True` prompt loop of
`BaseAgent._permission_request_callback`, fed the sequence of lines the
human types: a valid answer terminates the loop, an invalid line
re-prompts on the next line, and exhausting the (finite) list models the
loop still blocked waiting for input. -/
def permission_request_callback : List String → Option PermissionStatus
  | [] => Option.none
  | line :: rest =>
      let response := pyLower (pyStrip line)
      if response = "y" ∨ response = "yes" then some PermissionStatus.granted
      else if response = "n" ∨ response = "no" then some PermissionStatus.denied
      else permission_request_callback rest

/-- A line the prompt loop accepts. -/
def validAnswer (line : String) : Bool :=
  let r := pyLower (pyStrip line)
  r = "y" ∨ r = "yes" ∨ r = "n" ∨ r = "no"

/-- A line whose stripped, lowercased form means yes. -/
def yesAnswer (line : String) : Bool :=
  pyLower (pyStrip line) = "y" ∨ pyLower (pyStrip line) = "yes"

/-- A line whose stripped, lowercased form means no. -/
def noAnswer (line : String) : Bool :=
  pyLower (pyStrip line) = "n" ∨ pyLower (pyStrip line) = "no"

/-! ### Tool preparation (`OllamaAgent._prepare_tools`, src/agent/ollama_agent.py) -/

/-- A Python exception surfaced by dict subscripting. -/
inductive PyErr where
  | keyError (key : String)
deriving DecidableEq

/-- One entry of the list `_prepare_tools` builds: the dict
`{"name": ..., "description": ..., "parameters": {"type": "object",
"properties": ..., "required": ...}}`. -/
structure PreparedTool where
  name : String
  description : String
  propertiesVal : PyVal
  requiredVal : PyVal

/-- The body of the `for name, tool_data in self.available_tools.items()`
loop of `_prepare_tools`: `tool_data["schema"]["parameters"]["properties"]`
raises `KeyError` when the key is absent, while
`...["parameters"].get("required", [])` defaults. -/
def prepareOne (name : String) (toolData : RegisteredTool) :
    Except PyErr PreparedTool :=
  match dictGet toolData.schema.parameters "properties" with
  | some props =>
      Except.ok
        { name := name
          description := toolData.schema.description
          propertiesVal := props
          requiredVal := dictGetD toolData.schema.parameters "required" (PyVal.list []) }
  | Option.none => Except.error (PyErr.keyError "properties")

/-- The accumulation loop of `_prepare_tools`: the first raising entry
aborts the whole call with its exception. -/
def prepareLoop (acc : List PreparedTool) :
    List (String × RegisteredTool) → Except PyErr (List PreparedTool)
  | [] => Except.ok acc
  | (name, toolData) :: rest =>
      match prepareOne name toolData with
      | Except.ok t => prepareLoop (acc ++ [t]) rest
      | Except.error e => Except.error e

/-- Embeds `OllamaAgent._prepare_tools` (src/agent/ollama_agent.py, lines
325-351): an empty registry short-circuits to `[]`; otherwise each entry
is formatted in registry order, and a missing `"properties"` key raises. -/
def prepare_tools (reg : Registry) : Except PyErr (List PreparedTool) :=
  if reg.isEmpty then Except.ok [] else prepareLoop [] reg

/-- Every registered tool's `parameters` mapping has a `"properties"`
key. -/
def allHaveProperties (reg : Registry) : Prop :=
  ∀ p ∈ reg, (dictGet (RegisteredTool.schema p.2).parameters "properties").isSome

instance (reg : Registry) : Decidable (allHaveProperties reg) := by
  unfold allHaveProperties
  infer_instance

/-! ### The chat turn (`OllamaAgent.chat`, src/agent/ollama_agent.py) -/

/-- A conversation history entry (`{"role": ..., "content": ...}`). -/
structure Turn where
  role : String
  content : String
deriving DecidableEq

/-- The mutable agent state that a `chat` call touches. -/
structure AgentState where
  model : String
  systemPrompt : String
  history : List Turn
  tools : Registry

/-- The object returned by the awaited backend call, read through
`getattr(response, "tool_calls", ...)` (absent attribute modelled by
`Option.none`) and `response.message.content` (a missing message or
content attribute collapses to `Option.none`, which the code turns into
`""`). -/
structure ChatResp where
  content? : Option String
  toolCalls? : Option (List Call)

/-- One entry of the `agent_tool_calls` list built inside `chat`: a
`ToolCallResult` plus a `thinking` field that is always `None`. -/
structure AgentToolCall where
  name : String
  parameters : Params
  output : String
  error : Option String
  thinking : Option String

/-- What `chat` returns: a plain string, or the structured
`AgentResponse` dict when the backend made tool calls. -/
inductive ChatResult where
  | text (s : String)
  | agentResponse (message : String) (toolCalls : List AgentToolCall)
      (thinking : Option String)

/-- Embeds `OllamaAgent.chat` (src/agent/ollama_agent.py, lines 206-276).
The backend invocation is the external collaborator: it is passed in as
`backend`, an `Except` capturing either the awaited response or a raised
exception's `str(e)`.  `_prepare_tools()` is called on line 221 **before**
the `try` block, so its `KeyError` propagates out of `chat`; a backend
exception is caught and returned as an error string with the history
untouched, because the two `conversation_history.append` calls (lines
241-243) run only after the `await` completed. -/
def chat (st : AgentState) (message : String) (user_info : Option UserInfo)
    (backend : Except String ChatResp) : Except PyErr (AgentState × ChatResult) :=
  let formattedMessage := format_user_message message user_info
  match prepare_tools st.tools with
  | Except.error e => Except.error e
  | Except.ok _ =>
      Except.ok <|
        if st.model = "" then
          (st, ChatResult.text "Error: No model specified for Ollama agent")
        else
          match backend with
          | Except.error e =>
              (st, ChatResult.text ("Error communicating with Ollama: " ++ e))
          | Except.ok response =>
              let hasToolCalls := ¬ (response.toolCalls?.getD []).isEmpty
              let content := response.content?.getD ""
              let st' := { st with history :=
                st.history ++ [{ role := "user", content := formattedMessage },
                               { role := "assistant", content := content }] }
              if hasToolCalls then
                let results := execute_tool_calls st.tools (response.toolCalls?.getD [])
                (st', ChatResult.agentResponse content
                  (results.map (fun r =>
                    { name := r.name, parameters := r.parameters,
                      output := r.output, error := r.error,
                      thinking := Option.none }))
                  Option.none)
              else
                (st', ChatResult.text content)

/-- Iterate `chat` over a script of (message, backend response) pairs,
stopping if a call raises. -/
def chatRun (st : AgentState) : List (String × Except String ChatResp) → AgentState
  | [] => st
  | (m, b) :: rest =>
      match chat st m Option.none b with
      | Except.ok (st', _) => chatRun st' rest
      | Except.error _ => st

/-- A backend script entry that succeeds with no tool use (the attribute
may be absent, or present and empty — both make
`bool(getattr(response, "tool_calls", None))` false). -/
def noToolSuccess : Except String ChatResp → Bool
  | Except.ok resp => (resp.toolCalls?.getD []).isEmpty
  | Except.error _ => false

/-- The content string a chat turn records for a backend response. -/
def contentOf : Except String ChatResp → String
  | Except.ok r => r.content?.getD ""
  | Except.error _ => ""

/-- The two history turns one successful no-tool chat call appends. -/
def turnsOf (s : String × Except String ChatResp) : List Turn :=
  [{ role := "user", content := format_user_message s.1 Option.none },
   { role := "assistant", content := contentOf s.2 }]

/-- All history turns appended by a script of successful no-tool calls. -/
def turnsOfScript : List (String × Except String ChatResp) → List Turn
  | [] => []
  | s :: rest => turnsOf s ++ turnsOfScript rest

/-- The expected role sequence of `n` user/assistant exchanges. -/
def rolePattern : Nat → List String
  | 0 => []
  | n + 1 => "user" :: "assistant" :: rolePattern n

/-! ### Environment restoration (`OllamaAgent.__init__` / `__del__`,
src/agent/ollama_agent.py) -/

/-- The process environment, restricted to the one shared variable the
agent mutates: `some v` when `OLLAMA_HOST` is set to `v`. -/
abbrev Env := Option String

/-- The host bookkeeping `__init__` performs (lines 86-91):
`original_host = os.environ.get("OLLAMA_HOST")`, then
`host = host or original_host or "http://localhost:11434"`, then
`os.environ["OLLAMA_HOST"] = host`.  Returns (original_host, host, new
environment). -/
def initHost (env : Env) (hostArg : Option String) :
    Option String × String × Env :=
  let originalHost := env
  let host := (hostArg.filter (fun h => ¬ h.isEmpty)).getD
    ((originalHost.filter (fun h => ¬ h.isEmpty)).getD "http://localhost:11434")
  (originalHost, host, some host)

/-- The body of `OllamaAgent.__del__` (lines 110-117), for an instance
whose `__init__` reached the `original_host` assignment: restore
`OLLAMA_HOST` to the remembered value, or pop it when it was unset. -/
def delRestore (originalHost : Option String) (_env : Env) : Env :=
  match originalHost with
  | some v => some v
  | Option.none => Option.none

/-! ### Concrete fixtures used by witnesses and counterexamples -/

/-- A tool callable that returns a structured success result. -/
def okTool : ToolFn := fun _ => Except.ok { output? := some "ok-output", error? := Option.none }

/-- A tool callable that raises an exception with message `"boom"`. -/
def failTool : ToolFn := fun _ => Except.error "boom"

/-- A well-formed parameters schema (has a `"properties"` key). -/
def okSchema (n : String) : ToolSchema :=
  { name := n, description := "demo tool",
    parameters := [("properties", PyVal.dict []), ("required", PyVal.list [])] }

/-- A demo registry: two healthy tools around one that raises. -/
def demoReg : Registry :=
  [("first", ⟨okTool, okSchema "first"⟩), ("boom", ⟨failTool, okSchema "boom"⟩),
   ("third", ⟨okTool, okSchema "third"⟩)]

/-- A raw tool call carrying a name and an empty parameter mapping. -/
def callNamed (n : String) : Call := { name? := some n, parameters? := some [] }

/-- A demo agent state over `demoReg` with a fresh history. -/
def demoState : AgentState :=
  { model := "llama3", systemPrompt := "sys", history := [], tools := demoReg }

/-- A registry whose single tool was registered with a parameters mapping
that lacks the `"properties"` key — `register_tool` performs no
validation, so this state is reachable. -/
def badRegistry : Registry :=
  register_tool [] "broken" okTool "demo tool" [("type", PyVal.str "object")]

/-! ### Claim theorems -/

/-- C4.  Result aggregation preserves arity and order: `_execute_tool_calls`
returns exactly one `ToolCallResult` per input call — each the result of
dispatching that same call — and in the order the calls were presented. -/
theorem result_aggregation_arity_order (reg : Registry) (calls : List Call) :
    (execute_tool_calls reg calls).length = calls.length ∧
    ∀ j : Nat, (execute_tool_calls reg calls)[j]? = (calls[j]?).map (runCall reg) := by
  refine ⟨?_, ?_⟩
  · simp [execute_tool_calls_eq_map]
  · intro j
    simp [execute_tool_calls_eq_map]

/-- C1.  Tool-call isolation: when the registered function for the `i`-th
call of a batch raises with message `e`, that call's result has empty
output and error `"Error executing tool: " ++ e`, no exception escapes
`_execute_tool_calls` (it is total and returns one result per call), and
every other call of the batch — later ones included — is still dispatched
and reported at its own position. -/
theorem tool_call_isolation (reg : Registry) (calls : List Call) (i : Nat)
    (c : Call) (td : RegisteredTool) (e : String)
    (hc : calls[i]? = some c)
    (hreg : dictGet reg (c.name?.getD "") = some td)
    (hraise : td.function (c.parameters?.getD []) = Except.error e) :
    (execute_tool_calls reg calls).length = calls.length ∧
    (execute_tool_calls reg calls)[i]? = some
      { name := c.name?.getD "unknown", parameters := c.parameters?.getD [],
        output := "", error := some ("Error executing tool: " ++ e) } ∧
    ∀ j : Nat, (execute_tool_calls reg calls)[j]? = (calls[j]?).map (runCall reg) := by
  refine ⟨?_, ?_, ?_⟩
  · simp [execute_tool_calls_eq_map]
  · simp [execute_tool_calls_eq_map, hc, runCall, hreg, hraise]
  · intro j
    simp [execute_tool_calls_eq_map]

/-- Witness for C1: in a three-call batch over `demoReg` whose second call
raises, all three results are reported in order and the second carries the
converted error. -/
theorem tool_call_isolation_witness :
    (execute_tool_calls demoReg [callNamed "first", callNamed "boom", callNamed "third"]).length = 3 ∧
    (execute_tool_calls demoReg [callNamed "first", callNamed "boom", callNamed "third"])[1]? = some
      { name := "boom", parameters := [], output := "",
        error := some ("Error executing tool: " ++ "boom") } ∧
    ∀ j : Nat,
      (execute_tool_calls demoReg [callNamed "first", callNamed "boom", callNamed "third"])[j]? =
        ([callNamed "first", callNamed "boom", callNamed "third"][j]?).map (runCall demoReg) :=
  tool_call_isolation demoReg [callNamed "first", callNamed "boom", callNamed "third"] 1
    (callNamed "boom") ⟨failTool, okSchema "boom"⟩ "boom" rfl rfl rfl

/-- C2.  Unknown tool is data, not an exception: a call whose requested
name is absent from the registry yields a result with empty output and
error `"Tool '<name>' not found"` (exact name substituted), nothing is
raised (`_execute_tool_calls` is total), and every call of the batch is
still dispatched and reported at its own position. -/
theorem unknown_tool_not_found (reg : Registry) (calls : List Call) (i : Nat)
    (c : Call) (n : String)
    (hc : calls[i]? = some c) (hn : c.name? = some n)
    (habs : dictGet reg n = Option.none) :
    (execute_tool_calls reg calls).length = calls.length ∧
    (execute_tool_calls reg calls)[i]? = some
      { name := n, parameters := c.parameters?.getD [], output := "",
        error := some ("Tool '" ++ n ++ "' not found") } ∧
    ∀ j : Nat, (execute_tool_calls reg calls)[j]? = (calls[j]?).map (runCall reg) := by
  refine ⟨?_, ?_, ?_⟩
  · simp [execute_tool_calls_eq_map]
  · simp [execute_tool_calls_eq_map, hc, runCall, hn, habs]
  · intro j
    simp [execute_tool_calls_eq_map]

/-- Witness for C2: calling the unregistered name `"ghost"` over `demoReg`
produces the not-found result. -/
theorem unknown_tool_not_found_witness :
    (execute_tool_calls demoReg [callNamed "ghost"]).length = 1 ∧
    (execute_tool_calls demoReg [callNamed "ghost"])[0]? = some
      { name := "ghost", parameters := [], output := "",
        error := some ("Tool '" ++ "ghost" ++ "' not found") } ∧
    ∀ j : Nat, (execute_tool_calls demoReg [callNamed "ghost"])[j]? =
      ([callNamed "ghost"][j]?).map (runCall demoReg) :=
  unknown_tool_not_found demoReg [callNamed "ghost"] 0 (callNamed "ghost") "ghost" rfl rfl rfl

/-- C3.  Chat error boundary with history atomicity: when the backend
invocation raises, `chat` returns normally (no exception escapes past the
agent interface) with the error-shaped string
`"Error communicating with Ollama: <message>"`, and the agent state — in
particular `conversation_history` — is exactly the input state: the user
and assistant turns of the failed exchange are not appended. -/
theorem chat_error_boundary (st : AgentState) (message : String)
    (ui : Option UserInfo) (e : String)
    (hprep : (prepare_tools st.tools).isOk = true)
    (hmodel : st.model ≠ "") :
    chat st message ui (Except.error e) =
      Except.ok (st, ChatResult.text ("Error communicating with Ollama: " ++ e)) := by
  cases hp : prepare_tools st.tools with
  | error err => rw [hp] at hprep; simp [Except.isOk, Except.toBool] at hprep
  | ok ts => simp [chat, hp, hmodel]

/-- Witness for C3: a concrete backend timeout against `demoState` is
returned as an error string and leaves the (empty) history untouched. -/
theorem chat_error_boundary_witness :
    chat demoState "hi" Option.none (Except.error "timeout") =
      Except.ok (demoState,
        ChatResult.text ("Error communicating with Ollama: " ++ "timeout")) :=
  chat_error_boundary demoState "hi" Option.none "timeout" rfl (by decide)

/-- Splitting the merged f-string literal between the two tag blocks. -/
theorem infoQuerySplit :
    ("\n</user_info>\n\n<user_query>\n" : String) = "\n</user_info>\n\n" ++ "<user_query>\n" := by
  decide

/-- C8 counterexample: `user_info = {}` is present (not `None`) yet
`format_user_message` takes the falsy branch of `if user_info:` and emits
no `user_info` block at all, refuting the claim for that input. -/
theorem format_empty_user_info_counterexample :
    format_user_message "hello" (some []) = "<user_query>\nhello\n</user_query>" ∧
    ¬ containsTag (format_user_message "hello" (some [])) "<user_info>" := by
  exact ⟨rfl, by decide⟩

/-- C8 (amended).  Message formatting order: for every message and every
present **non-empty** `user_info`, the result is the `user_info` block
followed by the `user_query` block (so the `user_info` block appears
strictly before the query block); when `user_info` is `None` **or empty**
the result wraps the message in a `user_query` block only.  The function
is deterministic (it is a pure function of its arguments). -/
theorem format_user_message_order (message : String) (ui : UserInfo)
    (hne : ui ≠ []) :
    format_user_message message (some ui) =
      ("<user_info>\n" ++ jsonDumpsIndent2 ui ++ "\n</user_info>\n\n") ++
      ("<user_query>\n" ++ message ++ "\n</user_query>") ∧
    format_user_message message Option.none =
      "<user_query>\n" ++ message ++ "\n</user_query>" ∧
    format_user_message message (some []) =
      "<user_query>\n" ++ message ++ "\n</user_query>" := by
  refine ⟨?_, rfl, rfl⟩
  cases ui with
  | nil => exact absurd rfl hne
  | cons a as =>
      show ("<user_info>\n" ++ jsonDumpsIndent2 (a :: as) ++ "\n</user_info>\n\n<user_query>\n"
          ++ message ++ "\n</user_query>") = _
      rw [infoQuerySplit]
      simp only [String.append_assoc]

/-- Witness for C8 (amended): the spec's own example input. -/
theorem format_user_message_order_witness :
    format_user_message "hello" (some [("cursor", UVal.int 5)]) =
      ("<user_info>\n" ++ jsonDumpsIndent2 [("cursor", UVal.int 5)] ++ "\n</user_info>\n\n") ++
      ("<user_query>\n" ++ "hello" ++ "\n</user_query>") ∧
    format_user_message "hello" Option.none =
      "<user_query>\n" ++ "hello" ++ "\n</user_query>" ∧
    format_user_message "hello" (some []) =
      "<user_query>\n" ++ "hello" ++ "\n</user_query>" :=
  format_user_message_order "hello" [("cursor", UVal.int 5)] (by decide)

/-- Helper for C10: a loop over entries that all carry a `"properties"`
key completes without raising. -/
theorem prepareLoop_ok (l : List (String × RegisteredTool))
    (hall : ∀ p ∈ l, (dictGet (RegisteredTool.schema p.2).parameters "properties").isSome) :
    ∀ acc : List PreparedTool, ∃ ts, prepareLoop acc l = Except.ok ts := by
  induction l with
  | nil => intro acc; exact ⟨acc, rfl⟩
  | cons p rest ih =>
      intro acc
      obtain ⟨props, hprops⟩ := Option.isSome_iff_exists.mp (hall p (List.mem_cons_self p rest))
      have hrest : ∀ q ∈ rest,
          (dictGet (RegisteredTool.schema q.2).parameters "properties").isSome :=
        fun q hq => hall q (List.mem_cons_of_mem p hq)
      obtain ⟨ts, hts⟩ := ih hrest (acc ++
        [{ name := p.1, description := p.2.schema.description,
           propertiesVal := props,
           requiredVal := dictGetD p.2.schema.parameters "required" (PyVal.list []) }])
      refine ⟨ts, ?_⟩
      cases p with
      | mk name toolData => simpa [prepareLoop, prepareOne, hprops] using hts

/-- C10.  `_prepare_tools` is total exactly under the implicit precondition
that every registered tool's parameters mapping has a `"properties"` key
(which `register_tool` never validates): under the precondition it returns
a schema list, while `badRegistry` — whose single tool was registered
without `"properties"` — makes it raise `KeyError` at tool-preparation
time, before any tool function is invoked. -/
theorem prepare_tools_properties_requirement :
    (∀ reg : Registry, allHaveProperties reg → ∃ ts, prepare_tools reg = Except.ok ts) ∧
    prepare_tools badRegistry = Except.error (PyErr.keyError "properties") := by
  constructor
  · intro reg hall
    cases reg with
    | nil => exact ⟨[], rfl⟩
    | cons p rest =>
        obtain ⟨ts, hts⟩ := prepareLoop_ok (p :: rest) hall []
        exact ⟨ts, by simpa [prepare_tools] using hts⟩
  · rfl

/-- Witness for C10: `demoReg`, all of whose tools carry `"properties"`,
satisfies the precondition, and tool preparation succeeds on it. -/
theorem prepare_tools_properties_witness :
    ∃ ts, prepare_tools demoReg = Except.ok ts :=
  prepare_tools_properties_requirement.1 demoReg (by decide)

theorem dictGet_dictSet_self {V : Type} (d : Dict V) (k : String) (v : V) :
    dictGet (dictSet d k v) k = some v := by
  induction d with
  | nil => simp [dictSet, dictGet]
  | cons p rest ih =>
      by_cases h : p.1 = k
      · simp [dictSet, dictGet, h]
      · simp [dictSet, dictGet, h, ih]

theorem countKey_eq_zero_of_not_mem {V : Type} (d : Dict V) (k : String)
    (h : k ∉ dictKeys d) : countKey d k = 0 := by
  rw [countKey, List.countP_eq_zero]
  intro p hp
  simp only [decide_eq_true_eq]
  intro hk
  exact h (hk ▸ List.mem_map_of_mem Prod.fst hp)

theorem countKey_le_one_of_nodup {V : Type} (d : Dict V) (k : String)
    (h : (dictKeys d).Nodup) : countKey d k ≤ 1 := by
  induction d with
  | nil => exact Nat.zero_le 1
  | cons p rest ih =>
      have h' : (p.1 :: dictKeys rest).Nodup := h
      have hh := List.nodup_cons.mp h'
      by_cases hk : p.1 = k
      · have hz : countKey rest k = 0 :=
          countKey_eq_zero_of_not_mem rest k (hk ▸ hh.1)
        have hcons : countKey (p :: rest) k = countKey rest k + 1 := by
          simp [countKey, List.countP_cons, hk]
        omega
      · have hcons : countKey (p :: rest) k = countKey rest k := by
          simp [countKey, List.countP_cons, hk]
        rw [hcons]
        exact ih hh.2

theorem countKey_dictSet_self {V : Type} (d : Dict V) (k : String) (v : V)
    (h : countKey d k ≤ 1) : countKey (dictSet d k v) k = 1 := by
  induction d with
  | nil => simp [dictSet, countKey, List.countP_cons]
  | cons p rest ih =>
      by_cases hk : p.1 = k
      · have hcons : countKey (p :: rest) k = countKey rest k + 1 := by
          simp [countKey, List.countP_cons, hk]
        have hstep : dictSet (p :: rest) k v = (p.1, v) :: rest := by
          simp [dictSet, hk]
        have hnew : countKey ((p.1, v) :: rest) k = countKey rest k + 1 := by
          simp [countKey, List.countP_cons, hk]
        rw [hstep, hnew]
        omega
      · have hcons : countKey (p :: rest) k = countKey rest k := by
          simp [countKey, List.countP_cons, hk]
        have hstep : dictSet (p :: rest) k v = p :: dictSet rest k v := by
          simp [dictSet, hk]
        have hnew : countKey (p :: dictSet rest k v) k = countKey (dictSet rest k v) k := by
          simp [countKey, List.countP_cons, hk]
        rw [hstep, hnew]
        exact ih (by omega)

/-- C6.  Registry last-write-wins: registering the same name twice (with
possibly different callables, descriptions and parameter schemas) leaves
exactly one entry under that name, whose callable and schema are those of
the second registration.  The hypothesis records the registry invariant
that keys are unique, which every registry reachable through
`register_tool` satisfies. -/
theorem registry_last_write_wins (reg : Registry) (name : String)
    (f₁ f₂ : ToolFn) (d₁ d₂ : String) (p₁ p₂ : Dict PyVal)
    (h : (dictKeys reg).Nodup) :
    countKey (register_tool (register_tool reg name f₁ d₁ p₁) name f₂ d₂ p₂) name = 1 ∧
    dictGet (register_tool (register_tool reg name f₁ d₁ p₁) name f₂ d₂ p₂) name =
      some { function := f₂,
             schema := { name := name, description := d₂, parameters := p₂ } } := by
  constructor
  · simp only [register_tool]
    refine countKey_dictSet_self _ _ _ ?_
    rw [countKey_dictSet_self _ _ _ (countKey_le_one_of_nodup reg name h)]
  · simp only [register_tool]
    exact dictGet_dictSet_self _ _ _

/-- Helper for C7: the prompt loop only ever terminates with `GRANTED` or
`DENIED`; `ASK` is unreachable. -/
theorem callback_never_ask (ls : List String) :
    permission_request_callback ls ≠ some PermissionStatus.ask := by
  induction ls with
  | nil => simp [permission_request_callback]
  | cons a rest ih =>
      simp only [permission_request_callback]
      split
      · simp
      · split
        · simp
        · exact ih

/-- C7.  Default interactive permission callback: for every input-line
sequence containing at least one valid answer, the loop's outcome is
decided by the first valid line — `GRANTED` exactly when its stripped,
lowercased form is `"y"` or `"yes"`, `DENIED` exactly when it is `"n"` or
`"no"` — every earlier invalid line merely re-prompts no matter how many
there are, and the callback never returns `ASK`. -/
theorem default_callback_first_valid (inputs : List String)
    (h : ∃ l, l ∈ inputs ∧ validAnswer l = true) :
    (∀ ls : List String, permission_request_callback ls ≠ some PermissionStatus.ask) ∧
    ∃ l, inputs.find? validAnswer = some l ∧
      (permission_request_callback inputs = some PermissionStatus.granted ↔
        yesAnswer l = true) ∧
      (permission_request_callback inputs = some PermissionStatus.denied ↔
        noAnswer l = true) := by
  refine ⟨callback_never_ask, ?_⟩
  induction inputs with
  | nil => obtain ⟨l, hl, -⟩ := h; exact absurd hl (List.not_mem_nil l)
  | cons a rest ih =>
      by_cases hv : validAnswer a = true
      · have hvp : pyLower (pyStrip a) = "y" ∨ pyLower (pyStrip a) = "yes"
            ∨ pyLower (pyStrip a) = "n" ∨ pyLower (pyStrip a) = "no" := by
          simpa [validAnswer, decide_eq_true_eq] using hv
        refine ⟨a, List.find?_cons_of_pos rest hv, ?_, ?_⟩
        · rcases hvp with h1 | h1 | h1 | h1 <;>
            simp [permission_request_callback, yesAnswer, h1]
        · rcases hvp with h1 | h1 | h1 | h1 <;>
            simp [permission_request_callback, noAnswer, h1]
      · have hvn : ¬ (pyLower (pyStrip a) = "y" ∨ pyLower (pyStrip a) = "yes"
            ∨ pyLower (pyStrip a) = "n" ∨ pyLower (pyStrip a) = "no") := by
          simpa [validAnswer, decide_eq_true_eq] using hv
        have h1 : ¬ (pyLower (pyStrip a) = "y" ∨ pyLower (pyStrip a) = "yes") := by
          tauto
        have h2 : ¬ (pyLower (pyStrip a) = "n" ∨ pyLower (pyStrip a) = "no") := by
          tauto
        have hcb : permission_request_callback (a :: rest) =
            permission_request_callback rest := by
          simp [permission_request_callback, h1, h2]
        have hfind : (a :: rest).find? validAnswer = rest.find? validAnswer :=
          List.find?_cons_of_neg rest (by simpa using hv)
        obtain ⟨l, hl, hm⟩ : ∃ l, l ∈ rest ∧ validAnswer l = true := by
          obtain ⟨l, hl, hlv⟩ := h
          rcases List.mem_cons.mp hl with rfl | hl'
          · exact absurd hlv hv
          · exact ⟨l, hl', hlv⟩
        obtain ⟨l', hfind', hg, hd⟩ := ih ⟨l, hl, hm⟩
        exact ⟨l', by rw [hfind]; exact hfind',
          by rw [hcb]; exact hg, by rw [hcb]; exact hd⟩

/-- Witness for C7: one invalid line followed by `" Y "` yields `GRANTED`,
decided by the first valid line. -/
theorem default_callback_first_valid_witness :
    (∀ ls : List String, permission_request_callback ls ≠ some PermissionStatus.ask) ∧
    ∃ l, (["maybe", " Y "].find? validAnswer = some l) ∧
      (permission_request_callback ["maybe", " Y "] = some PermissionStatus.granted ↔
        yesAnswer l = true) ∧
      (permission_request_callback ["maybe", " Y "] = some PermissionStatus.denied ↔
        noAnswer l = true) :=
  default_callback_first_valid ["maybe", " Y "] ⟨" Y ", by decide, by decide⟩

/-- Witness for C6: registering `"x"` twice in a fresh registry. -/
theorem registry_last_write_wins_witness :
    countKey (register_tool (register_tool [] "x" okTool "one" [])
      "x" failTool "two" [("properties", PyVal.dict [])]) "x" = 1 ∧
    dictGet (register_tool (register_tool [] "x" okTool "one" [])
      "x" failTool "two" [("properties", PyVal.dict [])]) "x" =
      some { function := failTool,
             schema := { name := "x", description := "two",
                         parameters := [("properties", PyVal.dict [])] } } :=
  registry_last_write_wins [] "x" okTool failTool "one" "two" []
    [("properties", PyVal.dict [])] (by simp [dictKeys])

/-- Helper for C5: one successful chat call with no tool use appends
exactly the user turn followed by the assistant turn. -/
theorem chat_noTool_step (st : AgentState) (m : String) (resp : ChatResp)
    (hmodel : st.model ≠ "") (ts : List PreparedTool)
    (hprep : prepare_tools st.tools = Except.ok ts)
    (hnt : (resp.toolCalls?.getD []).isEmpty = true) :
    chat st m Option.none (Except.ok resp) =
      Except.ok ({ st with history := st.history ++ turnsOf (m, Except.ok resp) },
        ChatResult.text (resp.content?.getD "")) := by
  simp [chat, hprep, hmodel, hnt, turnsOf, contentOf]

/-- Helper for C5: running a script of successful no-tool calls appends
the user/assistant pair of each call, in order. -/
theorem chatRun_history (script : List (String × Except String ChatResp)) :
    ∀ st : AgentState, st.model ≠ "" → (prepare_tools st.tools).isOk = true →
    (∀ s ∈ script, noToolSuccess s.2 = true) →
    (chatRun st script).history = st.history ++ turnsOfScript script := by
  induction script with
  | nil => intro st _ _ _; simp [chatRun, turnsOfScript]
  | cons s rest ih =>
      intro st hm hp hs
      obtain ⟨m, b⟩ := s
      cases b with
      | error e =>
          have := hs (m, Except.error e) (List.mem_cons_self _ _)
          simp [noToolSuccess] at this
      | ok resp =>
          have hnt : (resp.toolCalls?.getD []).isEmpty = true := by
            simpa [noToolSuccess] using hs (m, Except.ok resp) (List.mem_cons_self _ _)
          obtain ⟨ts, hts⟩ : ∃ ts, prepare_tools st.tools = Except.ok ts := by
            cases hpt : prepare_tools st.tools with
            | ok ts => exact ⟨ts, rfl⟩
            | error e => rw [hpt] at hp; simp [Except.isOk, Except.toBool] at hp
          have hstep := chat_noTool_step st m resp hm ts hts hnt
          simp only [chatRun, hstep]
          rw [ih { st with history := st.history ++ turnsOf (m, Except.ok resp) }
            hm (by simpa using hp)
            (fun q hq => hs q (List.mem_cons_of_mem _ hq))]
          simp [turnsOfScript, List.append_assoc]

/-- Helper for C5: the roles of the appended turns follow the
user/assistant pattern. -/
theorem turnsOfScript_roles (script : List (String × Except String ChatResp)) :
    (turnsOfScript script).map Turn.role = rolePattern script.length := by
  induction script with
  | nil => rfl
  | cons s rest ih => simp [turnsOfScript, turnsOf, rolePattern, ih]

theorem rolePattern_length (n : Nat) : (rolePattern n).length = 2 * n := by
  induction n with
  | zero => rfl
  | succ n ih => simp [rolePattern, ih]; omega

theorem rolePattern_getElem (n : Nat) :
    ∀ i, i < 2 * n →
      (rolePattern n)[i]? = some (if i % 2 = 0 then "user" else "assistant") := by
  induction n with
  | zero => intro i hi; omega
  | succ n ih =>
      intro i hi
      match i with
      | 0 => simp [rolePattern]
      | 1 => simp [rolePattern]
      | (j + 2) =>
          have hstep : (rolePattern (n + 1))[j + 2]? = (rolePattern n)[j]? := by
            simp [rolePattern]
          rw [hstep, ih j (by omega)]
          have hmod : (j + 2) % 2 = j % 2 := by omega
          rw [hmod]

/-- C5.  History alternation: starting from a freshly constructed agent,
after `N` successful chat calls with no tool use the conversation history
has exactly `2 * N` entries whose roles strictly alternate user,
assistant, user, assistant, … beginning with user; moreover every
(successful) `chat` call only ever appends to the history — the input
history is a prefix of the output history. -/
theorem history_alternation (st : AgentState)
    (script : List (String × Except String ChatResp))
    (hmodel : st.model ≠ "") (hprep : (prepare_tools st.tools).isOk = true)
    (hfresh : st.history = [])
    (hs : ∀ s ∈ script, noToolSuccess s.2 = true) :
    (chatRun st script).history.length = 2 * script.length ∧
    (∀ (i : Nat) (t : Turn), (chatRun st script).history[i]? = some t →
      t.role = if i % 2 = 0 then "user" else "assistant") ∧
    ∀ (st₁ : AgentState) (m : String) (ui : Option UserInfo)
      (b : Except String ChatResp) (st₂ : AgentState) (r : ChatResult),
      chat st₁ m ui b = Except.ok (st₂, r) → st₁.history <+: st₂.history := by
  have hlen : (turnsOfScript script).length = 2 * script.length := by
    have := congrArg List.length (turnsOfScript_roles script)
    simpa [rolePattern_length] using this
  have hh : (chatRun st script).history = turnsOfScript script := by
    rw [chatRun_history script st hmodel hprep hs, hfresh, List.nil_append]
  refine ⟨by rw [hh, hlen], ?_, ?_⟩
  · intro i t ht
    rw [hh] at ht
    have hi : i < (turnsOfScript script).length := by
      rcases List.getElem?_eq_some.mp ht with ⟨hlt, -⟩
      exact hlt
    have hmap : ((turnsOfScript script).map Turn.role)[i]? = some t.role := by
      rw [List.getElem?_map, ht]; rfl
    rw [turnsOfScript_roles] at hmap
    rw [rolePattern_getElem script.length i (hlen ▸ hi)] at hmap
    exact (Option.some.inj hmap).symm
  · intro st₁ m ui b st₂ r hc
    cases hp : prepare_tools st₁.tools with
    | error e => simp [chat, hp] at hc
    | ok ts =>
        by_cases hm : st₁.model = ""
        · simp [chat, hp, hm] at hc
          rw [← hc.1]
        · cases b with
          | error e =>
              simp [chat, hp, hm] at hc
              rw [← hc.1]
          | ok resp =>
              by_cases htc : (resp.toolCalls?.getD []).isEmpty
              · simp [chat, hp, hm, htc] at hc
                rw [← hc.1]
                exact List.prefix_append _ _
              · simp [chat, hp, hm, htc] at hc
                rw [← hc.1]
                exact List.prefix_append _ _

/-- The script the C5 witness runs: two successful no-tool exchanges. -/
def demoScript : List (String × Except String ChatResp) :=
  [("hi", Except.ok { content? := some "hello", toolCalls? := Option.none }),
   ("more", Except.ok { content? := some "there", toolCalls? := some [] })]

/-- Witness for C5: two successful no-tool chat calls on a fresh agent
leave exactly four history entries. -/
theorem history_alternation_witness :
    (chatRun demoState demoScript).history.length = 2 * 2 :=
  (history_alternation demoState demoScript (by decide) rfl rfl (by decide)).1

/-- Supporting fact (not itself a claim): **when the `__del__` body runs**
for an instance whose `__init__` performed the host bookkeeping, it
restores `OLLAMA_HOST` to its pre-construction state — re-set when it was
set, removed when it was unset.  Whether Python invokes `__del__` on a
given exit path is a property of the runtime, outside this embedding. -/
theorem delRestore_initHost (env : Env) (hostArg : Option String) :
    delRestore (initHost env hostArg).1 (initHost env hostArg).2.2 = env := by
  cases env <;> simp [initHost, delRestore]

end CursorAgent
